import Mathlib

/-!
Verification of the parameter-marshalling bridge in `pyOpenMS/Param.pyx`
(functions `paramToDict` and `dictToParam`).

The Cython source converts between a native `Param` container (key →
tagged `DataValue`) and a Python `dict` (key → Python scalar).  We embed
both data models and the two conversion loops below, statement by
statement.

Modelling notes.
* Python dicts and `Param` containers are embedded as association lists
  (`List (String × _)`); a dict's keys are unique by construction, which
  appears as a `Nodup` hypothesis on the key list.
* The declarations `DataValue.pxd` and `Param.pxd` that `Param.pyx`
  cimports are not part of the sources given here; the shape of
  `DataValue` (a discriminated union over Text/Integer/Real plus other
  native tags), `Param.setValue` (insert or overwrite by key) and
  `getKeys`/`getValue` are modelled from the spec's data model, with the
  payload conversions exact: the integer payload is an unbounded `Int`
  and the floating-point payload is carried opaquely as a `Rat` (the
  bridge only copies these values, it never computes with them).
* In `dictToParam` the C pointer variable `dv` may be read without ever
  having been assigned (the three `isinstance` tests are independent
  `if`s with no `else`).  The pointer is embedded as an
  `Option DataValue`: `none` is the never-assigned state, and
  dereferencing it is undefined behaviour, which the embedding signals
  by returning `none` for the whole call.
-/

namespace ParamBridge

/-- A Python value as seen by `dictToParam`: `bool`, `int` (covering the
Python-2 `long` as well), `float`, `str`, or anything else (a list, a
dict, `None`, ...), the last collapsed into one constructor because the
code only ever tests `isinstance` against `int`/`long`/`float`/`str`. -/
inductive PyVal where
  | PyBool (b : Bool)
  | PyInt (n : Int)
  | PyFloat (x : Rat)
  | PyStr (s : String)
  | PyOther
  deriving DecidableEq, Repr

/-- A Python dict from string keys to values, as an association list in
iteration order.  A real dict never holds a key twice. -/
abbrev PyDict := List (String × PyVal)

/-- Modelled from the spec: the native tagged parameter value
(`DataValue` from `DataValue.pxd`, whose declaration file is not among
the given sources): a discriminated union over Text/Integer/Real, plus
`OtherVal` standing for every other native tag. -/
inductive DataValue where
  | StringVal (s : String)
  | IntVal (n : Int)
  | DoubleVal (x : Rat)
  | OtherVal
  deriving DecidableEq, Repr

/-- The native type tags `STRING_VALUE`, `INT_VALUE`, `DOUBLE_VALUE`
tested by `paramToDict`, plus one stand-in for every other tag. -/
inductive ValueTag where
  | STRING_VALUE
  | INT_VALUE
  | DOUBLE_VALUE
  | OTHER_VALUE
  deriving DecidableEq, Repr

/-- `val.valueType()`. -/
def DataValue.valueType : DataValue → ValueTag
  | .StringVal _ => .STRING_VALUE
  | .IntVal _ => .INT_VALUE
  | .DoubleVal _ => .DOUBLE_VALUE
  | .OtherVal => .OTHER_VALUE

/-- `val.toChar()` — the text payload, read only under the
`STRING_VALUE` tag. -/
def DataValue.toChar : DataValue → String
  | .StringVal s => s
  | _ => ""

/-- `<int> val` — the integer payload, read only under the `INT_VALUE`
tag. -/
def DataValue.toInt : DataValue → Int
  | .IntVal n => n
  | _ => 0

/-- `<double> val` — the floating-point payload, read only under the
`DOUBLE_VALUE` tag. -/
def DataValue.toDouble : DataValue → Rat
  | .DoubleVal x => x
  | _ => 0

/-- Modelled from the spec: the native `Param` container (from
`Param.pxd`, not among the given sources): a mapping from unique text
keys to tagged values, as an association list. -/
abbrev Param := List (String × DataValue)

/-- Association-list update with Python-dict / `Param.setValue`
semantics: overwrite in place when the key is present, append otherwise. -/
def assocSet {α : Type} (l : List (String × α)) (k : String) (v : α) :
    List (String × α) :=
  if l.any (fun e => e.1 == k) then
    l.map (fun e => if e.1 == k then (k, v) else e)
  else
    l ++ [(k, v)]

/-- Association-list lookup: the value of the first entry with the given
key. -/
def assocFind {α : Type} (l : List (String × α)) (k : String) : Option α :=
  (l.find? (fun e => e.1 == k)).map Prod.snd

/-- `getKeys(p)` — the container's key list. -/
def getKeys (p : Param) : List String :=
  p.map Prod.fst

/-- `p.getValue(skey)` — lookup by key; `none` models the native
key-lookup failure, which cannot occur for a key taken from
`getKeys(p)`. -/
def getValue (p : Param) (k : String) : Option DataValue :=
  assocFind p k

/-- `p.setValue(key, value)`. -/
def setValue (p : Param) (k : String) (v : DataValue) : Param :=
  assocSet p k v

/-- `isinstance(value, int) or isinstance(value, long)` — in Python a
`bool` is an `int` subtype, so it passes this test. -/
def isInstInt : PyVal → Bool
  | .PyBool _ => true
  | .PyInt _ => true
  | _ => false

/-- `isinstance(value, float)`. -/
def isInstFloat : PyVal → Bool
  | .PyFloat _ => true
  | _ => false

/-- `isinstance(value, str)`. -/
def isInstStr : PyVal → Bool
  | .PyStr _ => true
  | _ => false

/-- `<long>(value)` — the C integer obtained from a Python `int` (or
`bool`: `True` is 1, `False` is 0).  Applied only under `isInstInt`. -/
def pyToLong : PyVal → Int
  | .PyBool b => if b then 1 else 0
  | .PyInt n => n
  | _ => 0

/-- `<double>(value)` — applied only under `isInstFloat`. -/
def pyToDouble : PyVal → Rat
  | .PyFloat x => x
  | _ => 0

/-- `<char *>value` — applied only under `isInstStr`. -/
def pyToCStr : PyVal → String
  | .PyStr s => s
  | _ => ""

/-- The body of `paramToDict`'s `while` loop, iterating over the key
list with the container `p` fixed and the result dict `rv`
accumulating.  Each key is looked up, dispatched on `valueType()`, and
stored in `rv`; an unrecognised tag runs `raise "not implemented !"`.
A failed lookup (impossible for keys of `p`) is the native key-lookup
error. -/
def paramToDictGo (p : Param) : List String → PyDict → Except String PyDict
  | [], rv => .ok rv
  | skey :: rest, rv =>
    match getValue p skey with
    | none => .error "KeyLookupFailure"
    | some val =>
      if val.valueType = .STRING_VALUE then
        paramToDictGo p rest (assocSet rv skey (.PyStr val.toChar))
      else if val.valueType = .INT_VALUE then
        paramToDictGo p rest (assocSet rv skey (.PyInt val.toInt))
      else if val.valueType = .DOUBLE_VALUE then
        paramToDictGo p rest (assocSet rv skey (.PyFloat val.toDouble))
      else
        .error "not implemented !"

/-- `paramToDict(Param p)`: iterate `getKeys(p)` starting from an empty
dict. -/
def paramToDict (p : Param) : Except String PyDict :=
  paramToDictGo p (getKeys p) []

/-- The body of `dictToParam`'s `for key, value in dd.items()` loop.
`dv` is the C pointer variable `cdef DataValue * dv`, never initialised
before the loop; each of the three independent `if`s overwrites it when
its `isinstance` test succeeds, and otherwise it keeps its previous
contents.  `p.setValue(deref(temps), deref(dv))` dereferences `dv`:
if it was never assigned the behaviour is undefined and the embedding
returns `none` for the whole call. -/
def dictToParamGo : List (String × PyVal) → Option DataValue → Param →
    Option Param
  | [], _, p => some p
  | (key, value) :: rest, dv0, p =>
    let dv1 := if isInstInt value then
      some (DataValue.IntVal (pyToLong value)) else dv0
    let dv2 := if isInstFloat value then
      some (DataValue.DoubleVal (pyToDouble value)) else dv1
    let dv3 := if isInstStr value then
      some (DataValue.StringVal (pyToCStr value)) else dv2
    match dv3 with
    | none => none
    | some d => dictToParamGo rest (some d) (setValue p key d)

/-- `dictToParam(dict dd)`: run the loop over the dict's items with the
pointer `dv` unassigned and the container `p` default-constructed
(empty). -/
def dictToParam (dd : PyDict) : Option Param :=
  dictToParamGo dd none []

/-! ### Derived characterisations

`toDV v` is the tagged value that `dictToParam`'s three `isinstance`
branches construct for a Python value `v` that passes at least one of
the tests; `toPy d` is the Python value that `paramToDict` stores for a
value `d` carrying one of the three recognised tags.  These are proof
devices: the theorems below show the loops agree with them. -/

/-- The `DataValue` built by the branch of `dictToParam` that fires
last for `v` (`PyOther` fires no branch; the value given for it is
irrelevant and never used under the hypotheses below). -/
def toDV : PyVal → DataValue
  | .PyBool b => .IntVal (if b then 1 else 0)
  | .PyInt n => .IntVal n
  | .PyFloat x => .DoubleVal x
  | .PyStr s => .StringVal s
  | .PyOther => .OtherVal

/-- The Python value `paramToDict` stores for a tagged value (for
`OtherVal` the loop raises instead; the value given for it is
irrelevant). -/
def toPy : DataValue → PyVal
  | .StringVal s => .PyStr s
  | .IntVal n => .PyInt n
  | .DoubleVal x => .PyFloat x
  | .OtherVal => .PyOther

/-- `v` passes at least one of the three `isinstance` tests of
`dictToParam` (note a `bool` does). -/
def isDefinedPy (v : PyVal) : Bool :=
  isInstInt v || isInstFloat v || isInstStr v

/-- `v` is a text, integer or floating-point scalar in the sense of the
spec's Host Mapping (a `bool` is not). -/
def isScalarPy : PyVal → Bool
  | .PyInt _ => true
  | .PyFloat _ => true
  | .PyStr _ => true
  | _ => false

/-- `d` carries one of the three tags `paramToDict` recognises. -/
def isScalarDV (d : DataValue) : Bool :=
  d.valueType == .STRING_VALUE || d.valueType == .INT_VALUE ||
    d.valueType == .DOUBLE_VALUE

/-- The scalar kind (text / integer / real) of the spec's type-fidelity
property. -/
inductive ScalarKind where
  | text
  | integer
  | real
  deriving DecidableEq, Repr

/-- Scalar kind of a Python value (`none` for non-scalars). -/
def pyKind : PyVal → Option ScalarKind
  | .PyStr _ => some .text
  | .PyInt _ => some .integer
  | .PyFloat _ => some .real
  | _ => none

/-- Scalar kind of a tagged value (`none` for unsupported tags). -/
def dvKind : DataValue → Option ScalarKind
  | .StringVal _ => some .text
  | .IntVal _ => some .integer
  | .DoubleVal _ => some .real
  | .OtherVal => none

/-- The mapping produced by a successful `paramToDict`, or `[]` on the
error path (the error path returns no mapping at all). -/
def dictOf : Except String PyDict → PyDict
  | .ok m => m
  | .error _ => []

/-- Composition of the two conversions, mapping → container → mapping. -/
def roundTrip (dd : PyDict) : Option (Except String PyDict) :=
  (dictToParam dd).map paramToDict

/-! ### Input-threading variants

To state that neither conversion mutates its input, the loops are
re-embedded with the input object threaded through every primitive the
source code invokes on it, each primitive modelled with its effect
signature: `p.getValue` is a `const` read of the container, and
`dd.items()` only reads the dict.  Everything else is unchanged. -/

/-- `p.getValue(skey)` with its effect on the container made explicit:
the method is `const`, so it returns the container as it found it. -/
def getValueRd (p : Param) (k : String) : Option DataValue × Param :=
  (getValue p k, p)

/-- `paramToDict`'s loop, returning the result together with the state
of the input container after the call. -/
def paramToDictTrGo : Param → List String → PyDict →
    Except String PyDict × Param
  | p, [], rv => (.ok rv, p)
  | p, skey :: rest, rv =>
    match getValueRd p skey with
    | (none, p1) => (.error "KeyLookupFailure", p1)
    | (some val, p1) =>
      if val.valueType = .STRING_VALUE then
        paramToDictTrGo p1 rest (assocSet rv skey (.PyStr val.toChar))
      else if val.valueType = .INT_VALUE then
        paramToDictTrGo p1 rest (assocSet rv skey (.PyInt val.toInt))
      else if val.valueType = .DOUBLE_VALUE then
        paramToDictTrGo p1 rest (assocSet rv skey (.PyFloat val.toDouble))
      else
        (.error "not implemented !", p1)

/-- `paramToDict` with the final state of its input container. -/
def paramToDictTr (p : Param) : Except String PyDict × Param :=
  paramToDictTrGo p (getKeys p) []

/-- `dictToParam`'s loop, carrying the input dict object alongside the
iteration cursor; the loop body never writes to it.  Returns the result
together with the state of the input dict after the call. -/
def dictToParamTrGo : List (String × PyVal) → PyDict → Option DataValue →
    Param → Option Param × PyDict
  | [], dd, _, p => (some p, dd)
  | (key, value) :: rest, dd, dv0, p =>
    let dv1 := if isInstInt value then
      some (DataValue.IntVal (pyToLong value)) else dv0
    let dv2 := if isInstFloat value then
      some (DataValue.DoubleVal (pyToDouble value)) else dv1
    let dv3 := if isInstStr value then
      some (DataValue.StringVal (pyToCStr value)) else dv2
    match dv3 with
    | none => (none, dd)
    | some d => dictToParamTrGo rest dd (some d) (setValue p key d)

/-- `dictToParam` with the final state of its input dict. -/
def dictToParamTr (dd : PyDict) : Option Param × PyDict :=
  dictToParamTrGo dd dd none []

/-! ### Allocation-instrumented variant

`dictToParam` manages two native scratch objects per iteration by hand:
`dv = new DataValue(...)` (in whichever `isinstance` branches fire) and
`temps = new string(key)`, of which only `temps` is ever passed to
`del`.  To reason about leaks and about independence from runtime
state, the loop is re-embedded once more with an allocation ledger
threaded through it, bumped exactly where the source says `new` or
`del`. -/

/-- Ledger of `new`/`del` calls made on native scratch objects during
one `dictToParam` call: `DataValue` objects allocated and released,
`string` objects allocated and released. -/
structure AllocState where
  dvNew : Nat
  dvDel : Nat
  strNew : Nat
  strDel : Nat
  deriving DecidableEq, Repr

/-- `new DataValue(...)`. -/
def AllocState.newDV (s : AllocState) : AllocState :=
  ⟨s.dvNew + 1, s.dvDel, s.strNew, s.strDel⟩

/-- `new string(key)`. -/
def AllocState.newStr (s : AllocState) : AllocState :=
  ⟨s.dvNew, s.dvDel, s.strNew + 1, s.strDel⟩

/-- `del temps`. -/
def AllocState.delStr (s : AllocState) : AllocState :=
  ⟨s.dvNew, s.dvDel, s.strNew, s.strDel + 1⟩

/-- `dictToParam`'s loop with the allocation ledger threaded through:
each `isinstance` branch that fires performs one `new DataValue`, every
iteration performs `new string(key)` and — only after the `setValue`
call, hence not on the undefined-dereference path — `del temps`.  No
`del` is ever recorded for a `DataValue`: the source contains none. -/
def dictToParamAllocGo : List (String × PyVal) → Option DataValue → Param →
    AllocState → Option Param × AllocState
  | [], _, p, s => (some p, s)
  | (key, value) :: rest, dv0, p, s =>
    let r1 := if isInstInt value then
      (some (DataValue.IntVal (pyToLong value)), s.newDV) else (dv0, s)
    let r2 := if isInstFloat value then
      (some (DataValue.DoubleVal (pyToDouble value)), r1.2.newDV) else r1
    let r3 := if isInstStr value then
      (some (DataValue.StringVal (pyToCStr value)), r2.2.newDV) else r2
    let s4 := r3.2.newStr
    match r3.1 with
    | none => (none, s4)
    | some d => dictToParamAllocGo rest (some d) (setValue p key d) s4.delStr

/-- `dictToParam` with the allocation ledger, starting from a given
ledger state. -/
def dictToParamAlloc (dd : PyDict) (s : AllocState) :
    Option Param × AllocState :=
  dictToParamAllocGo dd none [] s

/-! ### Association-list lemmas -/

theorem any_key_eq_false {α : Type} {l : List (String × α)} {k : String}
    (h : k ∉ l.map Prod.fst) : l.any (fun e => e.1 == k) = false := by
  induction l with
  | nil => rfl
  | cons e rest ih =>
    simp only [List.map_cons, List.mem_cons] at h
    push_neg at h
    simp [List.any_cons, ih h.2, Ne.symm h.1]

theorem assocSet_append {α : Type} {l : List (String × α)} {k : String}
    {v : α} (h : k ∉ l.map Prod.fst) : assocSet l k v = l ++ [(k, v)] := by
  unfold assocSet
  rw [any_key_eq_false h, if_neg (by simp)]

theorem assocFind_cons_self {α : Type} (l : List (String × α)) (k : String)
    (v : α) : assocFind ((k, v) :: l) k = some v := by
  simp [assocFind, List.find?_cons]

theorem assocFind_cons_ne {α : Type} (l : List (String × α)) (k k' : String)
    (v : α) (h : k ≠ k') : assocFind ((k, v) :: l) k' = assocFind l k' := by
  simp [assocFind, List.find?_cons, h]

theorem assocFind_append_left {α : Type} {l₁ : List (String × α)}
    (l₂ : List (String × α)) {k : String} (h : k ∉ l₁.map Prod.fst) :
    assocFind (l₁ ++ l₂) k = assocFind l₂ k := by
  induction l₁ with
  | nil => rfl
  | cons e rest ih =>
    simp only [List.map_cons, List.mem_cons] at h
    push_neg at h
    obtain ⟨e₁, e₂⟩ := e
    rw [List.cons_append, assocFind_cons_ne _ _ _ _ (fun hh => h.1 hh.symm)]
    exact ih h.2

theorem assocFind_of_mem {α : Type} {l : List (String × α)} {k : String}
    {v : α} (hnd : (l.map Prod.fst).Nodup) (hmem : (k, v) ∈ l) :
    assocFind l k = some v := by
  induction l with
  | nil => cases hmem
  | cons e rest ih =>
    simp only [List.map_cons, List.nodup_cons] at hnd
    rcases List.mem_cons.mp hmem with he | hrest
    · subst he
      exact assocFind_cons_self rest k v
    · obtain ⟨e₁, e₂⟩ := e
      have hne : e₁ ≠ k := by
        intro hh
        subst hh
        exact hnd.1 (List.mem_map.mpr ⟨(e₁, v), hrest, rfl⟩)
      rw [assocFind_cons_ne _ _ _ _ hne]
      exact ih hnd.2 hrest

theorem assocFind_entry_map {α β : Type} (g : α → β)
    (l : List (String × α)) (k : String) :
    assocFind (l.map (fun e => (e.1, g e.2))) k = (assocFind l k).map g := by
  induction l with
  | nil => rfl
  | cons e rest ih =>
    obtain ⟨e₁, e₂⟩ := e
    by_cases hk : e₁ = k
    · subst hk
      simp only [List.map_cons]
      rw [assocFind_cons_self, assocFind_cons_self]
      rfl
    · simp only [List.map_cons]
      rw [assocFind_cons_ne _ _ _ _ hk, assocFind_cons_ne _ _ _ _ hk]
      exact ih

/-! ### One loop step -/

theorem dictToParamGo_cons_defined (k : String) (v : PyVal)
    (rest : List (String × PyVal)) (dv0 : Option DataValue) (acc : Param)
    (hv : isDefinedPy v = true) :
    dictToParamGo ((k, v) :: rest) dv0 acc =
      dictToParamGo rest (some (toDV v)) (setValue acc k (toDV v)) := by
  cases v with
  | PyBool b =>
    simp [dictToParamGo, isInstInt, isInstFloat, isInstStr, pyToLong, toDV]
  | PyInt n =>
    simp [dictToParamGo, isInstInt, isInstFloat, isInstStr, pyToLong, toDV]
  | PyFloat x =>
    simp [dictToParamGo, isInstInt, isInstFloat, isInstStr, pyToDouble, toDV]
  | PyStr s =>
    simp [dictToParamGo, isInstInt, isInstFloat, isInstStr, pyToCStr, toDV]
  | PyOther =>
    simp [isDefinedPy, isInstInt, isInstFloat, isInstStr] at hv

theorem paramToDictGo_cons_scalar (p : Param) (k : String) (d : DataValue)
    (ks : List String) (rv : PyDict) (hfind : getValue p k = some d)
    (hd : isScalarDV d = true) :
    paramToDictGo p (k :: ks) rv = paramToDictGo p ks (assocSet rv k (toPy d)) := by
  cases d with
  | StringVal s =>
    simp [paramToDictGo, hfind, DataValue.valueType, DataValue.toChar, toPy]
  | IntVal n =>
    simp [paramToDictGo, hfind, DataValue.valueType, DataValue.toInt, toPy]
  | DoubleVal x =>
    simp [paramToDictGo, hfind, DataValue.valueType, DataValue.toDouble, toPy]
  | OtherVal =>
    simp [isScalarDV, DataValue.valueType] at hd

theorem paramToDictGo_cons_other (p : Param) (k : String) (d : DataValue)
    (ks : List String) (rv : PyDict) (hfind : getValue p k = some d)
    (hd : isScalarDV d = false) :
    paramToDictGo p (k :: ks) rv = .error "not implemented !" := by
  cases d with
  | StringVal s => simp [isScalarDV, DataValue.valueType] at hd
  | IntVal n => simp [isScalarDV, DataValue.valueType] at hd
  | DoubleVal x => simp [isScalarDV, DataValue.valueType] at hd
  | OtherVal =>
    simp [paramToDictGo, hfind, DataValue.valueType]

/-! ### Whole-loop characterisations -/

theorem dictToParamGo_defined :
    ∀ (l : List (String × PyVal)) (dv0 : Option DataValue) (acc : Param),
      (∀ e ∈ l, isDefinedPy e.2 = true) → (l.map Prod.fst).Nodup →
      (∀ k ∈ l.map Prod.fst, k ∉ acc.map Prod.fst) →
      dictToParamGo l dv0 acc = some (acc ++ l.map fun e => (e.1, toDV e.2))
  | [], dv0, acc, _, _, _ => by simp [dictToParamGo]
  | (k, v) :: rest, dv0, acc, hdef, hnd, hdisj => by
    simp only [List.map_cons, List.nodup_cons] at hnd
    have hstep := dictToParamGo_cons_defined k v rest dv0 acc
      (hdef (k, v) (by simp))
    have hsetv : setValue acc k (toDV v) = acc ++ [(k, toDV v)] :=
      assocSet_append (hdisj k (by simp))
    have hdisj' : ∀ k' ∈ rest.map Prod.fst,
        k' ∉ (acc ++ [(k, toDV v)]).map Prod.fst := by
      intro k' hk'
      simp only [List.map_append, List.mem_append, List.map_cons,
        List.map_nil, List.mem_singleton]
      push_neg
      refine ⟨hdisj k' (by simp [hk']), ?_⟩
      intro hkk
      exact hnd.1 (hkk ▸ hk')
    have hrest := dictToParamGo_defined rest (some (toDV v))
      (acc ++ [(k, toDV v)]) (fun e he => hdef e (by simp [he])) hnd.2 hdisj'
    rw [hstep, hsetv, hrest]
    simp

theorem paramToDictGo_ok :
    ∀ (rest pre : Param) (rv : PyDict),
      ((pre ++ rest).map Prod.fst).Nodup →
      (∀ e ∈ rest, isScalarDV e.2 = true) →
      (∀ k ∈ rest.map Prod.fst, k ∉ rv.map Prod.fst) →
      paramToDictGo (pre ++ rest) (rest.map Prod.fst) rv =
        .ok (rv ++ rest.map fun e => (e.1, toPy e.2))
  | [], pre, rv, _, _, _ => by simp [paramToDictGo]
  | (k, d) :: rest, pre, rv, hnd, hsc, hdisj => by
    have hnd' := hnd
    simp only [List.map_append, List.map_cons, List.nodup_append,
      List.nodup_cons] at hnd'
    have hkpre : k ∉ pre.map Prod.fst := fun hk =>
      hnd'.2.2 hk (by simp)
    have hfind : getValue (pre ++ (k, d) :: rest) k = some d := by
      rw [getValue, assocFind_append_left _ hkpre]
      exact assocFind_cons_self rest k d
    have hstep := paramToDictGo_cons_scalar (pre ++ (k, d) :: rest) k d
      (rest.map Prod.fst) rv hfind (hsc (k, d) (by simp))
    have hsetv : assocSet rv k (toPy d) = rv ++ [(k, toPy d)] :=
      assocSet_append (hdisj k (by simp))
    have hnd2 : (((pre ++ [(k, d)]) ++ rest).map Prod.fst).Nodup := by
      rw [List.append_assoc, List.singleton_append]
      exact hnd
    have hdisj' : ∀ k' ∈ rest.map Prod.fst,
        k' ∉ (rv ++ [(k, toPy d)]).map Prod.fst := by
      intro k' hk'
      simp only [List.map_append, List.mem_append, List.map_cons,
        List.map_nil, List.mem_singleton]
      push_neg
      refine ⟨hdisj k' (by simp [hk']), ?_⟩
      intro hkk
      exact hnd'.2.1.1 (hkk ▸ hk')
    have hrest := paramToDictGo_ok rest (pre ++ [(k, d)]) (rv ++ [(k, toPy d)])
      hnd2 (fun e he => hsc e (by simp [he])) hdisj'
    rw [List.append_assoc, List.singleton_append] at hrest
    rw [List.map_cons, hstep, hsetv, hrest]
    simp

theorem paramToDictGo_err :
    ∀ (rest pre : Param) (rv : PyDict),
      ((pre ++ rest).map Prod.fst).Nodup →
      (∃ e ∈ rest, isScalarDV e.2 = false) →
      paramToDictGo (pre ++ rest) (rest.map Prod.fst) rv =
        .error "not implemented !"
  | [], _, _, _, hex => by simp at hex
  | (k, d) :: rest, pre, rv, hnd, hex => by
    have hnd' := hnd
    simp only [List.map_append, List.map_cons, List.nodup_append,
      List.nodup_cons] at hnd'
    have hkpre : k ∉ pre.map Prod.fst := fun hk =>
      hnd'.2.2 hk (by simp)
    have hfind : getValue (pre ++ (k, d) :: rest) k = some d := by
      rw [getValue, assocFind_append_left _ hkpre]
      exact assocFind_cons_self rest k d
    by_cases hd : isScalarDV d = true
    · have hstep := paramToDictGo_cons_scalar (pre ++ (k, d) :: rest) k d
        (rest.map Prod.fst) rv hfind hd
      have hex' : ∃ e ∈ rest, isScalarDV e.2 = false := by
        rcases hex with ⟨e, hmem, hef⟩
        rcases List.mem_cons.mp hmem with he | he
        · rw [he] at hef
          rw [hef] at hd
          cases hd
        · exact ⟨e, he, hef⟩
      have hnd2 : (((pre ++ [(k, d)]) ++ rest).map Prod.fst).Nodup := by
        rw [List.append_assoc, List.singleton_append]
        exact hnd
      have hrest := paramToDictGo_err rest (pre ++ [(k, d)])
        (assocSet rv k (toPy d)) hnd2 hex'
      rw [List.append_assoc, List.singleton_append] at hrest
      rw [List.map_cons, hstep, hrest]
    · rw [List.map_cons]
      exact paramToDictGo_cons_other _ k d _ rv hfind (by simpa using hd)

/-! ### Top-level characterisations -/

theorem dictToParam_defined (dd : PyDict)
    (hdef : ∀ e ∈ dd, isDefinedPy e.2 = true)
    (hnd : (dd.map Prod.fst).Nodup) :
    dictToParam dd = some (dd.map fun e => (e.1, toDV e.2)) := by
  simpa using dictToParamGo_defined dd none [] hdef hnd (by simp)

theorem paramToDict_ok (p : Param) (hnd : (p.map Prod.fst).Nodup)
    (hsc : ∀ e ∈ p, isScalarDV e.2 = true) :
    paramToDict p = .ok (p.map fun e => (e.1, toPy e.2)) := by
  have h := paramToDictGo_ok p [] [] (by simpa) hsc (by simp)
  simpa [paramToDict, getKeys] using h

theorem paramToDict_err (p : Param) (hnd : (p.map Prod.fst).Nodup)
    (hex : ∃ e ∈ p, isScalarDV e.2 = false) :
    paramToDict p = .error "not implemented !" := by
  have h := paramToDictGo_err p [] [] (by simpa) hex
  simpa [paramToDict, getKeys] using h

theorem paramToDictTrGo_frame :
    ∀ (p : Param) (ks : List String) (rv : PyDict),
      (paramToDictTrGo p ks rv).2 = p
  | _, [], _ => rfl
  | p, skey :: rest, rv => by
    rw [paramToDictTrGo]
    cases hv : getValue p skey with
    | none => simp [getValueRd, hv]
    | some val =>
      simp only [getValueRd, hv]
      by_cases h1 : val.valueType = .STRING_VALUE
      · simp [h1, paramToDictTrGo_frame]
      · by_cases h2 : val.valueType = .INT_VALUE
        · simp [h1, h2, paramToDictTrGo_frame]
        · by_cases h3 : val.valueType = .DOUBLE_VALUE
          · simp [h1, h2, h3, paramToDictTrGo_frame]
          · simp [h1, h2, h3]

theorem dictToParamTrGo_frame :
    ∀ (l : List (String × PyVal)) (dd : PyDict) (dv0 : Option DataValue)
      (p : Param), (dictToParamTrGo l dd dv0 p).2 = dd
  | [], _, _, _ => rfl
  | (key, value) :: rest, dd, dv0, p => by
    cases value with
    | PyBool b =>
      simpa [dictToParamTrGo, isInstInt, isInstFloat, isInstStr] using
        dictToParamTrGo_frame rest dd _ _
    | PyInt n =>
      simpa [dictToParamTrGo, isInstInt, isInstFloat, isInstStr] using
        dictToParamTrGo_frame rest dd _ _
    | PyFloat x =>
      simpa [dictToParamTrGo, isInstInt, isInstFloat, isInstStr] using
        dictToParamTrGo_frame rest dd _ _
    | PyStr s =>
      simpa [dictToParamTrGo, isInstInt, isInstFloat, isInstStr] using
        dictToParamTrGo_frame rest dd _ _
    | PyOther =>
      cases dv0 with
      | none => simp [dictToParamTrGo, isInstInt, isInstFloat, isInstStr]
      | some d =>
        simpa [dictToParamTrGo, isInstInt, isInstFloat, isInstStr] using
          dictToParamTrGo_frame rest dd _ _

theorem dictToParamAllocGo_fst :
    ∀ (l : List (String × PyVal)) (dv0 : Option DataValue) (p : Param)
      (s : AllocState),
      (dictToParamAllocGo l dv0 p s).1 = dictToParamGo l dv0 p
  | [], _, _, _ => rfl
  | (key, value) :: rest, dv0, p, s => by
    cases value with
    | PyBool b =>
      simpa [dictToParamAllocGo, dictToParamGo, isInstInt, isInstFloat,
        isInstStr] using dictToParamAllocGo_fst rest _ _ _
    | PyInt n =>
      simpa [dictToParamAllocGo, dictToParamGo, isInstInt, isInstFloat,
        isInstStr] using dictToParamAllocGo_fst rest _ _ _
    | PyFloat x =>
      simpa [dictToParamAllocGo, dictToParamGo, isInstInt, isInstFloat,
        isInstStr] using dictToParamAllocGo_fst rest _ _ _
    | PyStr s' =>
      simpa [dictToParamAllocGo, dictToParamGo, isInstInt, isInstFloat,
        isInstStr] using dictToParamAllocGo_fst rest _ _ _
    | PyOther =>
      cases dv0 with
      | none =>
        simp [dictToParamAllocGo, dictToParamGo, isInstInt, isInstFloat,
          isInstStr]
      | some d =>
        simpa [dictToParamAllocGo, dictToParamGo, isInstInt, isInstFloat,
          isInstStr] using dictToParamAllocGo_fst rest _ _ _

/-! ### Pointwise and map helpers -/

theorem scalar_defined {v : PyVal} (h : isScalarPy v = true) :
    isDefinedPy v = true := by
  cases v <;> simp_all [isScalarPy, isDefinedPy, isInstInt, isInstFloat,
    isInstStr]

theorem toDV_scalarDV {v : PyVal} (h : isScalarPy v = true) :
    isScalarDV (toDV v) = true := by
  cases v <;> simp_all [isScalarPy, isScalarDV, toDV, DataValue.valueType]

theorem toPy_toDV {v : PyVal} (h : isScalarPy v = true) :
    toPy (toDV v) = v := by
  cases v <;> simp_all [isScalarPy, toDV, toPy]

theorem dvKind_toDV {v : PyVal} (h : isScalarPy v = true) :
    dvKind (toDV v) = pyKind v := by
  cases v <;> simp_all [isScalarPy, toDV, dvKind, pyKind]

theorem pyKind_toPy (d : DataValue) : pyKind (toPy d) = dvKind d := by
  cases d <;> rfl

theorem keys_entry_map {α β : Type} (g : α → β) (l : List (String × α)) :
    (l.map fun e => (e.1, g e.2)).map Prod.fst = l.map Prod.fst := by
  induction l with
  | nil => rfl
  | cons e rest ih => simp [ih]

theorem entry_map_id {α : Type} (f : α → α) :
    ∀ l : List (String × α), (∀ e ∈ l, f e.2 = e.2) →
      (l.map fun e => (e.1, f e.2)) = l
  | [], _ => rfl
  | e :: rest, h => by
    have h1 : f e.2 = e.2 := h e (by simp)
    have h2 := entry_map_id f rest (fun e' he' => h e' (by simp [he']))
    simp [h1, h2]

/-! ### The claims -/

/-- Claim C1: converting a host mapping whose values are all text,
integer, or floating-point scalars to a container with `dictToParam`
and converting the result back with `paramToDict` yields exactly the
original mapping — same keys, same values, same scalar kind per key. -/
theorem claim1_roundtrip (dd : PyDict) (hnd : (dd.map Prod.fst).Nodup)
    (hsc : ∀ e ∈ dd, isScalarPy e.2 = true) :
    roundTrip dd = some (Except.ok dd) := by
  have h1 := dictToParam_defined dd (fun e he => scalar_defined (hsc e he)) hnd
  have hnd2 : ((dd.map fun e => (e.1, toDV e.2)).map Prod.fst).Nodup := by
    rw [keys_entry_map]
    exact hnd
  have hsc2 : ∀ e ∈ dd.map (fun e => (e.1, toDV e.2)), isScalarDV e.2 = true := by
    intro e he
    obtain ⟨a, ha, rfl⟩ := List.mem_map.mp he
    exact toDV_scalarDV (hsc a ha)
  have h2 := paramToDict_ok _ hnd2 hsc2
  rw [roundTrip, h1, Option.map_some', h2, List.map_map]
  exact congrArg (fun m => some (Except.ok m))
    (entry_map_id (fun v => toPy (toDV v)) dd
      (fun e he => toPy_toDV (hsc e he)))

/-- Witness for C1 at the spec's Example 1 mapping
`{"tolerance": 0.05, "iterations": 10, "mode": "fast"}`. -/
theorem claim1_roundtrip_witness :
    roundTrip [("tolerance", PyVal.PyFloat (1/20)),
        ("iterations", PyVal.PyInt 10), ("mode", PyVal.PyStr "fast")] =
      some (Except.ok [("tolerance", PyVal.PyFloat (1/20)),
        ("iterations", PyVal.PyInt 10), ("mode", PyVal.PyStr "fast")]) :=
  claim1_roundtrip _ (by decide) (by decide)

/-- Claim C2, evaluated at the failing input: `dictToParam` does not
reject the mapping `{"flag": True}` — a Python `bool` passes
`isinstance(value, int)`, so the call raises nothing and returns a
container storing the Integer 1 under `"flag"`, where the claim
requires an `UnsupportedValueType` failure and no output container. -/
theorem claim2_bool_not_rejected :
    dictToParam [("flag", PyVal.PyBool true)] =
      some [("flag", DataValue.IntVal 1)] := by decide

/-- Claim C3 counterexample: the failure `paramToDict` raises for an
unsupported tag is the fixed message `"not implemented !"`, identical
for two containers differing in the offending key, so the error
identifies neither the offending key nor the encountered type. -/
theorem claim3_error_not_descriptive :
    paramToDict [("keyA", DataValue.OtherVal)] =
      .error "not implemented !" ∧
    paramToDict [("keyB", DataValue.OtherVal)] =
      .error "not implemented !" ∧
    "keyA" ≠ "keyB" :=
  ⟨rfl, rfl, by decide⟩

/-- Claim C3 as amended: for every container holding a value with an
unsupported tag, `paramToDict` fails — it raises instead of returning
any partial mapping and never coerces the value to another type — but
the error is the fixed message `"not implemented !"`, which does not
identify the offending key or the encountered type. -/
theorem claim3_amended (p : Param) (hnd : (p.map Prod.fst).Nodup)
    (hex : ∃ e ∈ p, isScalarDV e.2 = false) :
    paramToDict p = .error "not implemented !" :=
  paramToDict_err p hnd hex

/-- Witness for the amended C3. -/
theorem claim3_amended_witness :
    paramToDict [("k", DataValue.OtherVal)] = .error "not implemented !" :=
  claim3_amended _ (by decide) ⟨("k", DataValue.OtherVal), by decide, by decide⟩

/-- Claim C4: on valid inputs each conversion direction preserves the
key list — equal cardinality, same keys, none dropped or duplicated —
and the empty mapping converts to the empty container and back. -/
theorem claim4_cardinality :
    (∀ dd : PyDict, (dd.map Prod.fst).Nodup →
      (∀ e ∈ dd, isScalarPy e.2 = true) →
      Option.map getKeys (dictToParam dd) = some (dd.map Prod.fst)) ∧
    (∀ p : Param, (p.map Prod.fst).Nodup →
      (∀ e ∈ p, isScalarDV e.2 = true) →
      Except.map (fun m : PyDict => m.map Prod.fst) (paramToDict p) =
        .ok (getKeys p)) ∧
    dictToParam [] = some [] ∧ paramToDict [] = Except.ok [] := by
  refine ⟨?_, ?_, rfl, rfl⟩
  · intro dd hnd hsc
    rw [dictToParam_defined dd (fun e he => scalar_defined (hsc e he)) hnd]
    rw [Option.map_some', getKeys, keys_entry_map]
  · intro p hnd hsc
    rw [paramToDict_ok p hnd hsc]
    exact congrArg Except.ok (keys_entry_map toPy p)

/-- Witness for C4. -/
theorem claim4_cardinality_witness :
    Option.map getKeys (dictToParam [("a", PyVal.PyInt 1)]) = some ["a"] ∧
    Except.map (fun m : PyDict => m.map Prod.fst)
        (paramToDict [("b", DataValue.StringVal "s")]) =
      .ok (getKeys [("b", DataValue.StringVal "s")]) :=
  ⟨claim4_cardinality.1 _ (by decide) (by decide),
   claim4_cardinality.2.1 _ (by decide) (by decide)⟩

/-- Claim C5: every converted entry keeps its scalar kind in both
directions — text ↔ Text, integer ↔ Integer, real ↔ Real — the tag in
the mapping → container direction being decided by the value's runtime
numeric subtype, so an integer never becomes a real and conversely. -/
theorem claim5_type_fidelity :
    (∀ dd : PyDict, (dd.map Prod.fst).Nodup →
      (∀ e ∈ dd, isScalarPy e.2 = true) →
      ∀ k v, (k, v) ∈ dd →
        (dictToParam dd).bind (fun p => getValue p k) = some (toDV v) ∧
        dvKind (toDV v) = pyKind v) ∧
    (∀ p : Param, (p.map Prod.fst).Nodup →
      (∀ e ∈ p, isScalarDV e.2 = true) →
      ∀ k d, (k, d) ∈ p →
        assocFind (dictOf (paramToDict p)) k = some (toPy d) ∧
        pyKind (toPy d) = dvKind d) := by
  constructor
  · intro dd hnd hsc k v hmem
    refine ⟨?_, dvKind_toDV (hsc (k, v) hmem)⟩
    rw [dictToParam_defined dd (fun e he => scalar_defined (hsc e he)) hnd]
    show getValue _ k = _
    rw [getValue, assocFind_entry_map, assocFind_of_mem hnd hmem]
    rfl
  · intro p hnd hsc k d hmem
    refine ⟨?_, pyKind_toPy d⟩
    rw [paramToDict_ok p hnd hsc]
    show assocFind (p.map fun e => (e.1, toPy e.2)) k = _
    rw [assocFind_entry_map, assocFind_of_mem hnd hmem]
    rfl

/-- Witness for C5. -/
theorem claim5_type_fidelity_witness :
    ((dictToParam [("n", PyVal.PyInt 7)]).bind
        (fun p => getValue p "n") = some (toDV (PyVal.PyInt 7)) ∧
      dvKind (toDV (PyVal.PyInt 7)) = pyKind (PyVal.PyInt 7)) ∧
    (assocFind (dictOf (paramToDict [("x", DataValue.DoubleVal 2)])) "x" =
        some (toPy (DataValue.DoubleVal 2)) ∧
      pyKind (toPy (DataValue.DoubleVal 2)) = dvKind (DataValue.DoubleVal 2)) :=
  ⟨claim5_type_fidelity.1 _ (by decide) (by decide) "n" (PyVal.PyInt 7)
      (by decide),
   claim5_type_fidelity.2 _ (by decide) (by decide) "x"
      (DataValue.DoubleVal 2) (by decide)⟩

/-- Claim C6: neither conversion mutates its input — threading the
input object through every operation the code performs on it, the
container `paramToDict` reads and the dict `dictToParam` iterates come
back unchanged on every path, success and error alike. -/
theorem claim6_no_mutation :
    (∀ p : Param, (paramToDictTr p).2 = p) ∧
    (∀ dd : PyDict, (dictToParamTr dd).2 = dd) :=
  ⟨fun p => paramToDictTrGo_frame p (getKeys p) [],
   fun dd => dictToParamTrGo_frame dd dd none []⟩

/-- Claim C7, evaluated at the failing input: converting the one-entry
mapping `{"a": 1}` performs one `new DataValue` and zero `del`s of a
`DataValue` — the source releases the scratch string (`del temps`) but
on no path releases `dv` — so the intermediate tagged value leaks,
where the claim requires every intermediate to be released before or
upon return. -/
theorem claim7_dv_leaked :
    dictToParamAlloc [("a", PyVal.PyInt 1)] ⟨0, 0, 0, 0⟩ =
      (some [("a", DataValue.IntVal 1)], ⟨1, 0, 1, 1⟩) := rfl

/-- Claim C8: both conversions are deterministic pure functions — equal
inputs give equal outputs, and the result of `dictToParam` does not
depend on the allocator ledger, the only runtime state its loop
touches. -/
theorem claim8_deterministic :
    (∀ p₁ p₂ : Param, p₁ = p₂ → paramToDict p₁ = paramToDict p₂) ∧
    (∀ (dd₁ dd₂ : PyDict) (s₁ s₂ : AllocState), dd₁ = dd₂ →
      (dictToParamAlloc dd₁ s₁).1 = (dictToParamAlloc dd₂ s₂).1 ∧
      (dictToParamAlloc dd₁ s₁).1 = dictToParam dd₁) := by
  refine ⟨fun p₁ p₂ h => by rw [h], ?_⟩
  intro dd₁ dd₂ s₁ s₂ h
  subst h
  constructor
  · rw [dictToParamAlloc, dictToParamAlloc, dictToParamAllocGo_fst,
      dictToParamAllocGo_fst]
  · rw [dictToParamAlloc, dictToParamAllocGo_fst]
    rfl

/-- Witness for C8: two allocator states, one input. -/
theorem claim8_deterministic_witness :
    paramToDict [("k", DataValue.IntVal 2)] =
      paramToDict [("k", DataValue.IntVal 2)] ∧
    (dictToParamAlloc [("a", PyVal.PyStr "s")] ⟨0, 0, 0, 0⟩).1 =
      (dictToParamAlloc [("a", PyVal.PyStr "s")] ⟨5, 6, 7, 8⟩).1 ∧
    (dictToParamAlloc [("a", PyVal.PyStr "s")] ⟨0, 0, 0, 0⟩).1 =
      dictToParam [("a", PyVal.PyStr "s")] :=
  ⟨claim8_deterministic.1 _ _ rfl,
   (claim8_deterministic.2 _ _ ⟨0, 0, 0, 0⟩ ⟨5, 6, 7, 8⟩ rfl).1,
   (claim8_deterministic.2 _ _ ⟨0, 0, 0, 0⟩ ⟨5, 6, 7, 8⟩ rfl).2⟩

/-- Claim C9: a boolean-valued entry is accepted by `dictToParam`
without error — `bool` being an `int` subtype, it passes the first
`isinstance` test — and is stored as an Integer-tagged value, `True`
as 1 and `False` as 0. -/
theorem claim9_bool_as_integer (dd : PyDict) (hnd : (dd.map Prod.fst).Nodup)
    (hdef : ∀ e ∈ dd, isDefinedPy e.2 = true) (k : String) (b : Bool)
    (hmem : (k, PyVal.PyBool b) ∈ dd) :
    (dictToParam dd).bind (fun p => getValue p k) =
      some (DataValue.IntVal (if b then 1 else 0)) := by
  rw [dictToParam_defined dd hdef hnd]
  show getValue _ k = _
  rw [getValue, assocFind_entry_map, assocFind_of_mem hnd hmem]
  rfl

/-- Witness for C9. -/
theorem claim9_bool_as_integer_witness :
    (dictToParam [("flag", PyVal.PyBool true)]).bind
      (fun p => getValue p "flag") = some (DataValue.IntVal 1) :=
  claim9_bool_as_integer _ (by decide) (by decide) "flag" true (by decide)

/-- Claim C10: the three `isinstance` tests of `dictToParam` are
independent, non-exclusive branches with no fallback — a first entry
whose value is none of integer, float, or string leaves the
tagged-value pointer unassigned and the call dereferences it (undefined
behaviour, `none` in the embedding), while a later such entry silently
stores the tagged value built for the previous entry under the new key;
no error of any kind is raised on either path. -/
theorem claim10_no_fallback :
    (∀ (k : String) (v : PyVal) (rest : PyDict),
      isInstInt v = false → isInstFloat v = false → isInstStr v = false →
      dictToParam ((k, v) :: rest) = none) ∧
    (∀ (k₁ : String) (v₁ : PyVal) (k₂ : String), isDefinedPy v₁ = true →
      k₁ ≠ k₂ →
      dictToParam [(k₁, v₁), (k₂, PyVal.PyOther)] =
        some [(k₁, toDV v₁), (k₂, toDV v₁)]) := by
  constructor
  · intro k v rest h1 h2 h3
    simp [dictToParam, dictToParamGo, h1, h2, h3]
  · intro k₁ v₁ k₂ hdef hne
    rw [dictToParam,
      dictToParamGo_cons_defined k₁ v₁ [(k₂, PyVal.PyOther)] none [] hdef]
    simp [dictToParamGo, isInstInt, isInstFloat, isInstStr, setValue,
      assocSet, hne]

/-- Witness for C10: first entry unsupported gives the undefined
dereference; an unsupported second entry reuses the first entry's
value. -/
theorem claim10_no_fallback_witness :
    dictToParam [("x", PyVal.PyOther)] = none ∧
    dictToParam [("a", PyVal.PyInt 3), ("b", PyVal.PyOther)] =
      some [("a", toDV (PyVal.PyInt 3)), ("b", toDV (PyVal.PyInt 3))] :=
  ⟨claim10_no_fallback.1 "x" PyVal.PyOther [] rfl rfl rfl,
   claim10_no_fallback.2 "a" (PyVal.PyInt 3) "b" rfl (by decide)⟩

end ParamBridge
